import Mathlib

/-!
Process lifecycle of the auth service (`auth/cmd/api/main.go`).

A shallow embedding of `main` and `run` of `auth/cmd/api/main.go`.

* The collaborators (`database`, `userdb`, `msgbroker`, `handler`, `logger`,
  `net/http`, `os/signal`) are opaque to `run`: every call on one of them is
  recorded as an `Effect` in a trace, in program order.
* The environment is a lookup function (`os.Getenv`).
* The two goroutines only communicate with `run` through the channels
  `serverErrors` and `shutdown`; the values that reach the `select` are given
  by the world as a list, in the order in which the `select` can observe them.
* `os.Exit` ends the process at once: deferred calls are not run.
* `strconv.Atoi`, `strconv.Itoa` and `fmt.Errorf` are transcribed from the Go
  standard library.
-/

namespace AuthApi

/-! ## Go errors (`errors`, `fmt.Errorf`) -/

/-- Go `error` values that are not nil: a leaf error carrying its message, or
the `*fmt.wrapError` built by `fmt.Errorf` with one `%w` operand. -/
inductive GoError where
  | errorString (s : String)
  | wrapError (msg : String) (err : GoError)
  deriving DecidableEq, Repr

namespace GoError

/-- Method `Error()`. -/
def Error : GoError → String
  | errorString s => s
  | wrapError msg _ => msg

/-- Method `Unwrap()` as seen by `errors.Unwrap`: nil for a leaf error. -/
def Unwrap : GoError → Option GoError
  | errorString _ => none
  | wrapError _ err => some err

/-- The chain visited by `errors.Is`: the error, then what it unwraps to, and
so on. -/
def chain : GoError → List GoError
  | errorString s => [errorString s]
  | wrapError msg err => wrapError msg err :: chain err

end GoError

/-- Function `errors.Is(err, target)` for a non-nil `err`. -/
def errorsIs (err target : GoError) : Bool :=
  decide (target ∈ err.chain)

/-- Call `fmt.Errorf(prefix + "%w", err)`: with a non-nil operand the result is
a `wrapError` whose message is the prefix followed by `err.Error()` and which
unwraps to `err`; with a nil operand the verb is reported as bad and nothing is
wrapped. -/
def Errorf (pfx : String) (err : Option GoError) : GoError :=
  match err with
  | some e => GoError.wrapError (pfx ++ e.Error) e
  | none => GoError.errorString (pfx ++ "%!w(<nil>)")

/-! ## `strconv` -/

/-- The two failures of `strconv`: `ErrSyntax` and `ErrRange`. -/
inductive NumError where
  | ErrSyntax
  | ErrRange
  deriving DecidableEq, Repr

deriving instance DecidableEq for Except

/-- Constant `strconv.IntSize` on a 64-bit platform. -/
def intSize : Nat := 64

/-- Largest `uint64`. -/
def maxUint64 : Nat := 2 ^ 64 - 1

/-- Loop of `ParseUint(s, 10, 0)` over the bytes of `s`, with `n` the value
accumulated so far; `uint64` arithmetic wraps modulo `2^64`. -/
def parseUintLoop : List Char → Nat → Except NumError Nat
  | [], n => .ok n
  | c :: cs, n =>
    if '0' ≤ c ∧ c ≤ '9' then
      let d := c.toNat - '0'.toNat
      -- cutoff = maxUint64/10 + 1
      if n ≥ maxUint64 / 10 + 1 then .error .ErrRange
      else
        let n := (n * 10) % 2 ^ 64
        let n1 := (n + d) % 2 ^ 64
        -- maxVal = 1<<64 - 1
        if n1 < n ∨ n1 > maxUint64 then .error .ErrRange
        else parseUintLoop cs n1
    else .error .ErrSyntax

/-- Function `strconv.ParseUint(s, 10, 0)`. -/
def ParseUint (s : List Char) : Except NumError Nat :=
  if s = [] then .error .ErrSyntax else parseUintLoop s 0

/-- Conversion `int64(un)` of a `uint64`. -/
def toInt64 (un : Nat) : Int :=
  if un < 2 ^ 63 then (un : Int) else (un : Int) - 2 ^ 64

/-- Negation of an `int64`, which wraps at `-2^63`. -/
def negInt64 (n : Int) : Int :=
  if n = -(2 ^ 63) then n else -n

/-- Function `strconv.ParseInt(s, 10, 0)`: the range failure of `ParseUint`
falls through to the cutoff test (its value is then `maxVal`). -/
def ParseInt (s : List Char) : Except NumError Int :=
  match s with
  | [] => .error .ErrSyntax
  | c0 :: tl =>
    let neg := decide (c0 = '-')
    let s1 := if c0 = '+' ∨ c0 = '-' then tl else c0 :: tl
    match ParseUint s1 with
    | .error .ErrSyntax => .error .ErrSyntax
    | r =>
      let un := match r with
        | .ok un => un
        | .error _ => maxUint64
      let cutoff := 2 ^ (intSize - 1)
      if ¬ neg ∧ un ≥ cutoff then .error .ErrRange
      else if neg ∧ un > cutoff then .error .ErrRange
      else
        let n := toInt64 un
        .ok (if neg then negInt64 n else n)

/-- Fast-path loop of `Atoi`: `n = n*10 + int(ch - '0')`, a syntax error at the
first byte that is not a digit. -/
def atoiLoop : List Char → Int → Except NumError Int
  | [], n => .ok n
  | ch :: cs, n =>
    if '0' ≤ ch ∧ ch ≤ '9' then atoiLoop cs (n * 10 + ((ch.toNat - '0'.toNat : Nat) : Int))
    else .error .ErrSyntax

/-- Function `strconv.Atoi(s)` with a 64-bit `int`: the fast path for
`0 < len(s) < 19`, otherwise `ParseInt(s, 10, 0)`. -/
def Atoi (s : String) : Except NumError Int :=
  let sLen := s.utf8ByteSize
  if 0 < sLen ∧ sLen < 19 then
    match s.data with
    | [] => .error .ErrSyntax
    | c0 :: tl =>
      let body := if c0 = '-' ∨ c0 = '+' then tl else c0 :: tl
      if (c0 = '-' ∨ c0 = '+') ∧ tl.length < 1 then .error .ErrSyntax
      else
        match atoiLoop body 0 with
        | .error e => .error e
        | .ok n => .ok (if c0 = '-' then -n else n)
  else ParseInt s.data

/-- Loop of `formatBits` for base 10 (`for us >= 10 { q := us / 10;
digit(us - q*10); us = q }` and then the last digit), most significant digit
first; the first argument bounds the number of iterations. -/
def formatBitsLoop : Nat → Nat → List Char
  | 0, us => [Char.ofNat ('0'.toNat + us % 10)]
  | fuel + 1, us =>
    if us ≥ 10 then formatBitsLoop fuel (us / 10) ++ [Char.ofNat ('0'.toNat + us % 10)]
    else [Char.ofNat ('0'.toNat + us)]

/-- The decimal digits of `u`, most significant first. -/
def formatDigits (u : Nat) : List Char :=
  formatBitsLoop u u

/-- Function `strconv.Itoa(i)`, that is `FormatInt(int64(i), 10)`: the digits
of the magnitude, after a minus sign when `i < 0`. -/
def Itoa (i : Int) : String :=
  if i < 0 then String.mk ('-' :: formatDigits i.natAbs)
  else String.mk (formatDigits i.natAbs)

/-! ## `time`, `os`, `os/signal` -/

/-- Type `time.Duration`: a number of nanoseconds. -/
abbrev Duration := Nat

/-- Constant `time.Nanosecond`. -/
def Nanosecond : Duration := 1

/-- Constant `time.Microsecond`. -/
def Microsecond : Duration := 1000 * Nanosecond

/-- Constant `time.Millisecond`. -/
def Millisecond : Duration := 1000 * Microsecond

/-- The signals registered with `signal.Notify(shutdown, ...)`: the only values
the `shutdown` channel can carry. -/
inductive Signal where
  | SIGINT
  | SIGTERM
  deriving DecidableEq, Repr

/-- A value received at the `select` of `run`: from `serverErrors` (what
`srv.ListenAndServe()` returned, of type `error`) or from `shutdown`. -/
inductive Received where
  | serverErrors (err : Option GoError)
  | shutdown (sig : Signal)
  deriving DecidableEq, Repr

/-- Everything `run` reads from outside: the environment, the values that
become available to the `select` (in the order in which it can observe them;
the empty list when neither channel ever carries a value), and what
`srv.Shutdown(ctx)` returns when it is called. -/
structure World where
  Getenv : String → String
  arrivals : List Received
  shutdownErr : Option GoError

/-! ## Effects -/

/-- An argument of a log call after the message. -/
inductive LogArg where
  | str (s : String)
  | int (n : Int)
  | sig (s : Signal)
  deriving DecidableEq, Repr

/-- The calls `main` and `run` make on their collaborators, in program
order. -/
inductive Effect where
  /-- Call `database.ConnectDB(ctx, log)`. -/
  | ConnectDB
  /-- Call `db.Close(ctx)`. -/
  | dbClose
  /-- Call `userdb.NewStore(db)`. -/
  | NewStore
  /-- Call `log.Error(ctx, msg, args...)`. -/
  | logError (msg : String) (args : List LogArg)
  /-- Call `log.Info(ctx, msg, args...)`. -/
  | logInfo (msg : String) (args : List LogArg)
  /-- Call `os.Exit(code)`. -/
  | osExit (code : Int)
  /-- Call `msgbroker.NewMsgBroker(serviceName, msgBrokerPath, log)`. -/
  | NewMsgBroker (serviceName msgBrokerPath : String)
  /-- Call `handler.NewHandler(store, msgbroker, log)`. -/
  | NewHandler
  /-- Construction `&http.Server{Addr: addr, Handler: mux}`. -/
  | httpServer (addr : String)
  /-- Call `signal.Notify(shutdown, sigs...)`. -/
  | signalNotify (sigs : List Signal)
  /-- The goroutine that logs the startup line and sends
  `srv.ListenAndServe()` on `serverErrors`. -/
  | goListenAndServe (port : Int)
  /-- The goroutine that calls `u.SubscribeGetFollowers()`. -/
  | goSubscribeGetFollowers
  /-- Call `msgbroker.Close()`. -/
  | msgbrokerClose
  /-- Call `context.WithTimeout(ctx, d)`. -/
  | WithTimeout (d : Duration)
  /-- Call `cancel()` of the context made by `WithTimeout`. -/
  | cancel
  /-- Call `srv.Shutdown(ctx)` with the context whose timeout is `d`. -/
  | srvShutdown (d : Duration)
  deriving DecidableEq, Repr

/-- How a call of `run` ends. -/
inductive Ending where
  /-- The process was ended by `os.Exit(code)` inside `run`. -/
  | exited (code : Int)
  /-- Function `run` returned `err` (`none` is nil). -/
  | returned (err : Option GoError)
  /-- Function `run` waits at the `select` for ever. -/
  | blocked
  deriving DecidableEq, Repr

/-- A finished (or for ever blocked) call of `run`: how it ended, the effects
it had, and the arrivals it did not receive. -/
structure RunResult where
  ending : Ending
  trace : List Effect
  pending : List Received
  deriving DecidableEq, Repr

/-- Statement `return err`: the deferred calls run, last deferred first, and
then the function returns. -/
def returnWith (trace defers : List Effect) (pending : List Received)
    (err : Option GoError) : RunResult :=
  ⟨.returned err, trace ++ defers, pending⟩

/-- Call `os.Exit(code)`: the process ends, no deferred call runs. -/
def exitWith (trace : List Effect) (pending : List Received) (code : Int) : RunResult :=
  ⟨.exited code, trace ++ [.osExit code], pending⟩

/-- Function `run(ctx, serviceName, log)`. The list `defers` is the stack of
deferred calls, the last deferred first. -/
def run (w : World) (serviceName : String) : RunResult :=
  -- db := database.ConnectDB(ctx, log); defer db.Close(ctx)
  let t := [Effect.ConnectDB]
  let defers := [Effect.dbClose]
  -- store := userdb.NewStore(db)
  let t := t ++ [.NewStore]
  let msgBrokerPath := w.Getenv "NATS_URL"
  if msgBrokerPath = "" then
    let t := t ++ [.logError serviceName
      [.str "status", .str "Environment variable NATS_URL is empty"]]
    exitWith t w.arrivals 1
  else
  let t := t ++ [.NewMsgBroker serviceName msgBrokerPath]
  let t := t ++ [.NewHandler]
  let portEnv := w.Getenv "PORT"
  match Atoi portEnv with
  | .error _ =>
    let t := t ++ [.logError serviceName
      [.str "status", .str "Environment variable PORT converting to integer"]]
    exitWith t w.arrivals 1
  | .ok port =>
  let t := t ++ [.httpServer (":" ++ Itoa port)]
  let t := t ++ [.signalNotify [.SIGINT, .SIGTERM]]
  let t := t ++ [.goListenAndServe port]
  let t := t ++ [.goSubscribeGetFollowers]
  -- select
  match w.arrivals with
  | [] => ⟨.blocked, t, []⟩
  | .serverErrors err :: pending =>
    returnWith t defers pending (some (Errorf "server error: " err))
  | .shutdown sig :: pending =>
    let t := t ++ [.logInfo (serviceName ++ "shutdown")
      [.str "status", .str "shutdown started", .str "signal", .sig sig]]
    let defers := Effect.logInfo (serviceName ++ "shutdown")
      [.str "status", .str "shutdown complete", .str "signal", .sig sig] :: defers
    let t := t ++ [.msgbrokerClose]
    let t := t ++ [.WithTimeout (Microsecond * 500)]
    let defers := Effect.cancel :: defers
    let t := t ++ [.srvShutdown (Microsecond * 500)]
    match w.shutdownErr with
    | some err =>
      returnWith t defers pending (some (Errorf "could not stop server gracefully: " (some err)))
    | none =>
      returnWith t defers pending none

/-- A finished process: its exit status and all its effects; `none` when the
process never ends. -/
structure ProcessResult where
  status : Option Int
  trace : List Effect
  deriving DecidableEq, Repr

/-- Function `main()`: when `run` returns, `main` logs the error if there is
one and returns, and a Go process whose `main` returns ends with status 0. -/
def main (w : World) : ProcessResult :=
  let serviceName := "auth service"
  let r := run w serviceName
  match r.ending with
  | .exited code => ⟨some code, r.trace⟩
  | .blocked => ⟨none, r.trace⟩
  | .returned (some err) =>
    ⟨some 0, r.trace ++ [.logError
      (serviceName ++ (" Error server shutdown: " ++ err.Error ++ "\n")) []]⟩
  | .returned none => ⟨some 0, r.trace⟩

/-- A lookup for an environment with the two variables `run` reads. -/
def env (natsUrl port : String) : String → String :=
  fun name => if name = "NATS_URL" then natsUrl else if name = "PORT" then port else ""

/-! ## Decimal strings -/

/-- A decimal digit byte, `'0'` to `'9'`. -/
def isDigit (c : Char) : Bool := decide ('0' ≤ c ∧ c ≤ '9')

/-- A run of digits that does not start with `'0'`. -/
def positiveDigits : List Char → Bool
  | [] => false
  | d :: tl => isDigit d && d != '0' && tl.all isDigit

/-- Canonical decimal form: `0`, or digits with no leading zero, after an
optional minus sign. -/
def canonicalDecimal (s : String) : Bool :=
  match s.data with
  | '-' :: ds => positiveDigits ds
  | ds => ds == ['0'] || positiveDigits ds

/-- Value of the digit byte `c`. -/
def digitVal (c : Char) : Nat := c.toNat - '0'.toNat

/-- Value of a run of digits, most significant first. -/
def digitsVal (ds : List Char) : Nat := ds.foldl (fun a c => a * 10 + digitVal c) 0

/-- What a string accepted by `ParseInt` or `Atoi` looks like: a non-empty run
of digits, bare or after one sign, and the result is its value, negated after
a minus sign. -/
def Accepts (cs : List Char) (n : Int) : Prop :=
  ∃ body, body ≠ [] ∧ (∀ c ∈ body, isDigit c = true) ∧
    ((cs = body ∧ n = (digitsVal body : Int)) ∨
      (cs = '+' :: body ∧ n = (digitsVal body : Int)) ∨
      (cs = '-' :: body ∧ n = -(digitsVal body : Int)))

/-- The `Addr` of the `http.Server` an effect constructs. -/
def Effect.addr : Effect → Option String
  | .httpServer a => some a
  | _ => none

/-! ## Classifying effects -/

/-- The two steps of the shutdown sequence: `msgbroker.Close()` and
`srv.Shutdown(ctx)`. -/
def Effect.isStop : Effect → Bool
  | .msgbrokerClose => true
  | .srvShutdown _ => true
  | _ => false

/-- The listener is constructed (`&http.Server{...}`) or started (the goroutine
calling `srv.ListenAndServe()`). -/
def Effect.isListener : Effect → Bool
  | .httpServer _ => true
  | .goListenAndServe _ => true
  | _ => false

/-- The listener is started: the goroutine calling `srv.ListenAndServe()`. -/
def Effect.isListenerStart : Effect → Bool
  | .goListenAndServe _ => true
  | _ => false

/-- A resource is acquired or a collaborator constructed: the store connection,
the store, the messaging client, the handler. -/
def Effect.isAcquire : Effect → Bool
  | .ConnectDB => true
  | .NewStore => true
  | .NewMsgBroker _ _ => true
  | .NewHandler => true
  | _ => false

/-- The log line that opens the shutdown sequence:
`log.Info(..., "status", "shutdown started", ...)`. -/
def Effect.isShutdownStarted : Effect → Bool
  | .logInfo _ args => decide (LogArg.str "shutdown started" ∈ args)
  | _ => false

/-- An error is logged. -/
def Effect.isLogError : Effect → Bool
  | .logError _ _ => true
  | _ => false

/-- The effects of `run` up to the `select`, for a messaging address and a
parsed port. -/
def startupTrace (serviceName msgBrokerPath : String) (port : Int) : List Effect :=
  [.ConnectDB, .NewStore, .NewMsgBroker serviceName msgBrokerPath, .NewHandler,
    .httpServer (":" ++ Itoa port), .signalNotify [.SIGINT, .SIGTERM],
    .goListenAndServe port, .goSubscribeGetFollowers]

/-! ## The paths of `run` -/

theorem run_nats_empty (w : World) (serviceName : String)
    (hN : w.Getenv "NATS_URL" = "") :
    run w serviceName = ⟨.exited 1,
      [.ConnectDB, .NewStore,
        .logError serviceName [.str "status", .str "Environment variable NATS_URL is empty"],
        .osExit 1], w.arrivals⟩ := by
  simp [run, hN, exitWith]

theorem run_port_error (w : World) (serviceName : String) (e : NumError)
    (hN : w.Getenv "NATS_URL" ≠ "") (hP : Atoi (w.Getenv "PORT") = .error e) :
    run w serviceName = ⟨.exited 1,
      [.ConnectDB, .NewStore, .NewMsgBroker serviceName (w.Getenv "NATS_URL"), .NewHandler,
        .logError serviceName
          [.str "status", .str "Environment variable PORT converting to integer"],
        .osExit 1], w.arrivals⟩ := by
  simp [run, hN, hP, exitWith]

theorem run_blocked (w : World) (serviceName : String) (port : Int)
    (hN : w.Getenv "NATS_URL" ≠ "") (hP : Atoi (w.Getenv "PORT") = .ok port)
    (hA : w.arrivals = []) :
    run w serviceName =
      ⟨.blocked, startupTrace serviceName (w.Getenv "NATS_URL") port, []⟩ := by
  simp [run, hN, hP, hA, startupTrace]

theorem run_fault (w : World) (serviceName : String) (port : Int)
    (err : Option GoError) (rest : List Received)
    (hN : w.Getenv "NATS_URL" ≠ "") (hP : Atoi (w.Getenv "PORT") = .ok port)
    (hA : w.arrivals = .serverErrors err :: rest) :
    run w serviceName = ⟨.returned (some (Errorf "server error: " err)),
      startupTrace serviceName (w.Getenv "NATS_URL") port ++ [.dbClose], rest⟩ := by
  simp [run, hN, hP, hA, startupTrace, returnWith]

theorem run_interrupt (w : World) (serviceName : String) (port : Int)
    (sig : Signal) (rest : List Received)
    (hN : w.Getenv "NATS_URL" ≠ "") (hP : Atoi (w.Getenv "PORT") = .ok port)
    (hA : w.arrivals = .shutdown sig :: rest) :
    run w serviceName =
      ⟨.returned (w.shutdownErr.map
          fun err => Errorf "could not stop server gracefully: " (some err)),
        startupTrace serviceName (w.Getenv "NATS_URL") port ++
          [.logInfo (serviceName ++ "shutdown")
              [.str "status", .str "shutdown started", .str "signal", .sig sig],
            .msgbrokerClose, .WithTimeout (Microsecond * 500),
            .srvShutdown (Microsecond * 500), .cancel,
            .logInfo (serviceName ++ "shutdown")
              [.str "status", .str "shutdown complete", .str "signal", .sig sig],
            .dbClose], rest⟩ := by
  cases hS : w.shutdownErr <;> simp [run, hN, hP, hA, hS, startupTrace, returnWith]

/-- The five paths of `run`, by what the world supplies. -/
theorem run_cases (w : World) :
    (w.Getenv "NATS_URL" = "") ∨
    (w.Getenv "NATS_URL" ≠ "" ∧ ∃ e, Atoi (w.Getenv "PORT") = .error e) ∨
    (w.Getenv "NATS_URL" ≠ "" ∧ ∃ port, Atoi (w.Getenv "PORT") = .ok port ∧
      (w.arrivals = [] ∨
        (∃ err rest, w.arrivals = .serverErrors err :: rest) ∨
        (∃ sig rest, w.arrivals = .shutdown sig :: rest))) := by
  by_cases hN : w.Getenv "NATS_URL" = ""
  · exact Or.inl hN
  · right
    cases hP : Atoi (w.Getenv "PORT") with
    | error e => exact Or.inl ⟨hN, e, rfl⟩
    | ok port =>
      right
      refine ⟨hN, port, rfl, ?_⟩
      cases hA : w.arrivals with
      | nil => exact Or.inl rfl
      | cons a rest =>
        cases a with
        | serverErrors err => exact Or.inr (Or.inl ⟨err, rest, rfl⟩)
        | shutdown sig => exact Or.inr (Or.inr ⟨sig, rest, rfl⟩)

theorem GoError.self_mem_chain (e : GoError) : e ∈ e.chain := by
  cases e <;> simp [GoError.chain]

theorem errorsIs_Errorf (pfx : String) (e : GoError) :
    errorsIs (Errorf pfx (some e)) e = true := by
  simp [errorsIs, Errorf, GoError.chain, GoError.self_mem_chain]

/-! ## Listener fault -/

/-- C1: when the configuration is valid and the first value received at the
`select` is an error `e` from `serverErrors`, `run` returns a non-nil error
whose `Unwrap` is `e`, for which `errors.Is(_, e)` holds, and whose message is
"server error: " followed by the message of `e`. -/
theorem listener_fault_returns_wrapped (w : World) (serviceName : String) (port : Int)
    (e : GoError) (rest : List Received)
    (hN : w.Getenv "NATS_URL" ≠ "") (hP : Atoi (w.Getenv "PORT") = .ok port)
    (hA : w.arrivals = .serverErrors (some e) :: rest) :
    ∃ r, (run w serviceName).ending = .returned (some r) ∧ r.Unwrap = some e ∧
      errorsIs r e = true ∧ r.Error = "server error: " ++ e.Error := by
  refine ⟨Errorf "server error: " (some e), ?_, rfl, errorsIs_Errorf _ _, rfl⟩
  rw [run_fault w serviceName port (some e) rest hN hP hA]

theorem listener_fault_returns_wrapped_witness :
    ∃ r, (run ⟨env "nats://n:4222" "8080",
        [.serverErrors (some (.errorString "listen tcp :8080: bind: address already in use")),
          .shutdown .SIGINT], none⟩ "auth service").ending = .returned (some r) ∧
      r.Unwrap = some (.errorString "listen tcp :8080: bind: address already in use") ∧
      errorsIs r (.errorString "listen tcp :8080: bind: address already in use") = true ∧
      r.Error = "server error: " ++
        (GoError.errorString "listen tcp :8080: bind: address already in use").Error :=
  listener_fault_returns_wrapped _ "auth service" 8080 _ [.shutdown .SIGINT]
    (by decide) (by decide) rfl

/-- C2 (the code at a listener fault): with a valid configuration and a
listener fault received first, `run` returns the wrapped error and its trace
holds no `msgbroker.Close()` at all; the only cleanup is `db.Close`. -/
theorem listener_fault_never_closes_msgbroker :
    (run ⟨env "nats://n:4222" "8080",
        [.serverErrors (some (.errorString "accept tcp: use of closed network connection"))],
        none⟩ "auth service").ending
      = .returned (some (.wrapError
        "server error: accept tcp: use of closed network connection"
        (.errorString "accept tcp: use of closed network connection"))) ∧
    (run ⟨env "nats://n:4222" "8080",
        [.serverErrors (some (.errorString "accept tcp: use of closed network connection"))],
        none⟩ "auth service").trace.count .msgbrokerClose = 0 ∧
    (run ⟨env "nats://n:4222" "8080",
        [.serverErrors (some (.errorString "accept tcp: use of closed network connection"))],
        none⟩ "auth service").trace
      = startupTrace "auth service" "nats://n:4222" 8080 ++ [.dbClose] := by
  decide

/-! ## External interrupt -/

/-- C3: when the configuration is valid and the first value received at the
`select` is a signal from `shutdown`, `run` returns nil exactly when
`srv.Shutdown(ctx)` returns nil, and when `srv.Shutdown(ctx)` returns an error
`run` returns a non-nil error that wraps it, with the message
"could not stop server gracefully: " followed by that of the close error. -/
theorem interrupt_outcome (w : World) (serviceName : String) (port : Int)
    (sig : Signal) (rest : List Received)
    (hN : w.Getenv "NATS_URL" ≠ "") (hP : Atoi (w.Getenv "PORT") = .ok port)
    (hA : w.arrivals = .shutdown sig :: rest) :
    ((run w serviceName).ending = .returned none ↔ w.shutdownErr = none) ∧
    (∀ err, w.shutdownErr = some err →
      ∃ r, (run w serviceName).ending = .returned (some r) ∧ r.Unwrap = some err ∧
        errorsIs r err = true ∧
        r.Error = "could not stop server gracefully: " ++ err.Error) := by
  rw [run_interrupt w serviceName port sig rest hN hP hA]
  constructor
  · cases w.shutdownErr <;> simp
  · intro err hS
    exact ⟨Errorf "could not stop server gracefully: " (some err), by simp [hS], rfl,
      errorsIs_Errorf _ _, rfl⟩

theorem interrupt_outcome_witness :
    (((run ⟨env "nats://n:4222" "8080", [.shutdown .SIGTERM],
          some (.errorString "context deadline exceeded")⟩ "auth service").ending
        = .returned none ↔
      (some (GoError.errorString "context deadline exceeded")) = none) ∧
    (∀ err, some (GoError.errorString "context deadline exceeded") = some err →
      ∃ r, (run ⟨env "nats://n:4222" "8080", [.shutdown .SIGTERM],
          some (.errorString "context deadline exceeded")⟩ "auth service").ending
          = .returned (some r) ∧ r.Unwrap = some err ∧
        errorsIs r err = true ∧
        r.Error = "could not stop server gracefully: " ++ err.Error)) ∧
    (run ⟨env "nats://n:4222" "8080", [.shutdown .SIGTERM], none⟩ "auth service").ending
      = .returned none :=
  ⟨interrupt_outcome ⟨env "nats://n:4222" "8080", [.shutdown .SIGTERM],
      some (.errorString "context deadline exceeded")⟩ "auth service" 8080 .SIGTERM []
      (by decide) (by decide) rfl,
    by decide⟩

/-- C8: when the configuration is valid and the first value received at the
`select` is a signal from `shutdown`, the stop calls of `run` are exactly
`msgbroker.Close()` and then `srv.Shutdown(ctx)`, once each, the context of
`srv.Shutdown` comes from `context.WithTimeout` with `time.Microsecond*500`,
which is 500000 ns and less than one millisecond, whatever the configuration
values and the signal are. -/
theorem interrupt_shutdown_sequence (w : World) (serviceName : String) (port : Int)
    (sig : Signal) (rest : List Received)
    (hN : w.Getenv "NATS_URL" ≠ "") (hP : Atoi (w.Getenv "PORT") = .ok port)
    (hA : w.arrivals = .shutdown sig :: rest) :
    (run w serviceName).trace.filter Effect.isStop
        = [.msgbrokerClose, .srvShutdown (500 * Microsecond)] ∧
      (∃ pre post, (run w serviceName).trace =
        pre ++ [.msgbrokerClose, .WithTimeout (500 * Microsecond),
          .srvShutdown (500 * Microsecond)] ++ post ∧
        pre.filter Effect.isStop = [] ∧ post.filter Effect.isStop = []) ∧
      500 * Microsecond = 500000 * Nanosecond ∧ 500 * Microsecond < Millisecond := by
  rw [run_interrupt w serviceName port sig rest hN hP hA]
  refine ⟨?_, ⟨startupTrace serviceName (w.Getenv "NATS_URL") port ++
      [.logInfo (serviceName ++ "shutdown")
        [.str "status", .str "shutdown started", .str "signal", .sig sig]],
    [.cancel, .logInfo (serviceName ++ "shutdown")
        [.str "status", .str "shutdown complete", .str "signal", .sig sig], .dbClose],
    ?_, ?_, ?_⟩, ?_, ?_⟩
  · simp [startupTrace, List.filter, Effect.isStop, Nat.mul_comm]
  · simp [Nat.mul_comm]
  · simp [startupTrace, List.filter, Effect.isStop]
  · simp [List.filter, Effect.isStop]
  · decide
  · decide

theorem interrupt_shutdown_sequence_witness :
    (run ⟨env "nats://n:4222" "8080", [.shutdown .SIGINT, .serverErrors none],
        none⟩ "auth service").trace.filter Effect.isStop
        = [.msgbrokerClose, .srvShutdown (500 * Microsecond)] ∧
      (∃ pre post, (run ⟨env "nats://n:4222" "8080",
          [.shutdown .SIGINT, .serverErrors none], none⟩ "auth service").trace =
        pre ++ [.msgbrokerClose, .WithTimeout (500 * Microsecond),
          .srvShutdown (500 * Microsecond)] ++ post ∧
        pre.filter Effect.isStop = [] ∧ post.filter Effect.isStop = []) ∧
      500 * Microsecond = 500000 * Nanosecond ∧ 500 * Microsecond < Millisecond :=
  interrupt_shutdown_sequence _ "auth service" 8080 .SIGINT [.serverErrors none]
    (by decide) (by decide) rfl

/-! ## The store connection -/

/-- C10: whenever `run` returns, its trace starts with `database.ConnectDB`,
holds `db.Close` exactly once and ends with it (so after `msgbroker.Close()`,
`srv.Shutdown` and the "shutdown complete" log when they occur); whenever `run`
ends the process with `os.Exit`, `db.Close` is not in the trace. -/
theorem db_close_last_on_return (w : World) (serviceName : String) :
    (∀ err, (run w serviceName).ending = .returned err →
      (run w serviceName).trace.head? = some .ConnectDB ∧
      (run w serviceName).trace.count .dbClose = 1 ∧
      (run w serviceName).trace.getLast? = some .dbClose) ∧
    (∀ code, (run w serviceName).ending = .exited code →
      Effect.dbClose ∉ (run w serviceName).trace) := by
  rcases run_cases w with hN | ⟨hN, e, hP⟩ | ⟨hN, port, hP, hA | ⟨err, rest, hA⟩ | ⟨sig, rest, hA⟩⟩
  · rw [run_nats_empty w serviceName hN]; simp
  · rw [run_port_error w serviceName e hN hP]; simp
  · rw [run_blocked w serviceName port hN hP hA]; simp
  · rw [run_fault w serviceName port err rest hN hP hA]
    simp [startupTrace, List.count_cons]
  · rw [run_interrupt w serviceName port sig rest hN hP hA]
    simp [startupTrace, List.count_cons]

theorem db_close_last_on_return_witness :
    ((run ⟨env "nats://n:4222" "8080", [.shutdown .SIGTERM], none⟩ "auth service").trace.head?
        = some .ConnectDB ∧
      (run ⟨env "nats://n:4222" "8080", [.shutdown .SIGTERM], none⟩ "auth service").trace.count
        .dbClose = 1 ∧
      (run ⟨env "nats://n:4222" "8080", [.shutdown .SIGTERM], none⟩ "auth service").trace.getLast?
        = some .dbClose) ∧
    Effect.dbClose ∉ (run ⟨env "" "8080", [.shutdown .SIGTERM], none⟩ "auth service").trace :=
  ⟨(db_close_last_on_return ⟨env "nats://n:4222" "8080", [.shutdown .SIGTERM], none⟩
      "auth service").1 none (by decide),
    (db_close_last_on_return ⟨env "" "8080", [.shutdown .SIGTERM], none⟩
      "auth service").2 1 (by decide)⟩

/-! ## One signal, one outcome -/

/-- C7: when no value ever arrives at the `select`, `run` does not return (it
waits for ever, or the process was ended during startup); and whenever `run`
returns, it received exactly the first arrival and left the others pending, its
result is the one outcome fixed by that arrival (the wrapped listener error,
or what `srv.Shutdown` reported, wrapped when not nil), and the shutdown
sequence was entered at most once: at most one "shutdown started" line, one
`msgbroker.Close()` and one `srv.Shutdown`. -/
theorem returns_after_exactly_one_signal (w : World) (serviceName : String) :
    (w.arrivals = [] →
      (run w serviceName).ending = .blocked ∨ (run w serviceName).ending = .exited 1) ∧
    (∀ err, (run w serviceName).ending = .returned err →
      ∃ first rest, w.arrivals = first :: rest ∧ (run w serviceName).pending = rest ∧
        ((∃ e, first = .serverErrors e ∧ err = some (Errorf "server error: " e)) ∨
          (∃ sig, first = .shutdown sig ∧ err = w.shutdownErr.map
            fun e => Errorf "could not stop server gracefully: " (some e))) ∧
        (run w serviceName).trace.countP Effect.isShutdownStarted ≤ 1 ∧
        (run w serviceName).trace.count .msgbrokerClose ≤ 1 ∧
        ((run w serviceName).trace.filter Effect.isStop).length ≤ 2) := by
  rcases run_cases w with hN | ⟨hN, e, hP⟩ | ⟨hN, port, hP, hA | ⟨err, rest, hA⟩ | ⟨sig, rest, hA⟩⟩
  · rw [run_nats_empty w serviceName hN]; simp
  · rw [run_port_error w serviceName e hN hP]; simp
  · rw [run_blocked w serviceName port hN hP hA]; simp
  · rw [run_fault w serviceName port err rest hN hP hA]
    refine ⟨by simp [hA], ?_⟩
    intro err1 h1
    refine ⟨.serverErrors err, rest, hA, rfl, Or.inl ⟨err, rfl, ?_⟩, ?_⟩
    · simpa using h1.symm
    · simp [startupTrace, List.count_cons, List.countP_cons, List.filter,
        Effect.isShutdownStarted, Effect.isStop]
  · rw [run_interrupt w serviceName port sig rest hN hP hA]
    refine ⟨by simp [hA], ?_⟩
    intro err1 h1
    refine ⟨.shutdown sig, rest, hA, rfl, Or.inr ⟨sig, rfl, ?_⟩, ?_⟩
    · simpa using h1.symm
    · simp [startupTrace, List.count_cons, List.countP_cons, List.filter,
        Effect.isShutdownStarted, Effect.isStop]

theorem returns_after_exactly_one_signal_witness :
    ((run ⟨env "nats://n:4222" "8080", [], none⟩ "auth service").ending = .blocked ∨
      (run ⟨env "nats://n:4222" "8080", [], none⟩ "auth service").ending = .exited 1) ∧
    (∃ first rest,
      [Received.shutdown .SIGINT, .serverErrors (some (.errorString "http: Server closed"))]
        = first :: rest ∧
      (run ⟨env "nats://n:4222" "8080",
        [.shutdown .SIGINT, .serverErrors (some (.errorString "http: Server closed"))],
        none⟩ "auth service").pending = rest ∧
      ((∃ e, first = .serverErrors e ∧ none = some (Errorf "server error: " e)) ∨
        (∃ sig, first = .shutdown sig ∧ none = (none : Option GoError).map
          fun e => Errorf "could not stop server gracefully: " (some e))) ∧
      (run ⟨env "nats://n:4222" "8080",
        [.shutdown .SIGINT, .serverErrors (some (.errorString "http: Server closed"))],
        none⟩ "auth service").trace.countP Effect.isShutdownStarted ≤ 1 ∧
      (run ⟨env "nats://n:4222" "8080",
        [.shutdown .SIGINT, .serverErrors (some (.errorString "http: Server closed"))],
        none⟩ "auth service").trace.count .msgbrokerClose ≤ 1 ∧
      ((run ⟨env "nats://n:4222" "8080",
        [.shutdown .SIGINT, .serverErrors (some (.errorString "http: Server closed"))],
        none⟩ "auth service").trace.filter Effect.isStop).length ≤ 2) :=
  ⟨(returns_after_exactly_one_signal ⟨env "nats://n:4222" "8080", [], none⟩
      "auth service").1 rfl,
    (returns_after_exactly_one_signal ⟨env "nats://n:4222" "8080",
      [.shutdown .SIGINT, .serverErrors (some (.errorString "http: Server closed"))],
      none⟩ "auth service").2 none (by decide)⟩

/-! ## Startup -/

theorem Atoi_empty : Atoi "" = .error .ErrSyntax := by decide

/-- C5: the listener goroutine is started exactly when `NATS_URL` is not empty
and `strconv.Atoi` accepts `PORT`; otherwise `run` ends the process with
`os.Exit(1)` right after a `log.Error` line, with no listener constructed or
started before; in particular when `PORT` is the empty string. -/
theorem listener_started_iff_config_valid (w : World) (serviceName : String) :
    ((run w serviceName).trace.any Effect.isListenerStart = true ↔
      (w.Getenv "NATS_URL" ≠ "" ∧ ∃ port, Atoi (w.Getenv "PORT") = .ok port)) ∧
    (¬ (w.Getenv "NATS_URL" ≠ "" ∧ ∃ port, Atoi (w.Getenv "PORT") = .ok port) →
      (run w serviceName).ending = .exited 1 ∧
      (run w serviceName).trace.any Effect.isListener = false ∧
      ∃ pre msg args, (run w serviceName).trace = pre ++ [.logError msg args, .osExit 1]) ∧
    (w.Getenv "PORT" = "" →
      (run w serviceName).ending = .exited 1 ∧
      (run w serviceName).trace.any Effect.isListener = false) := by
  rcases run_cases w with hN | ⟨hN, e, hP⟩ | ⟨hN, port, hP, hA | ⟨err, rest, hA⟩ | ⟨sig, rest, hA⟩⟩
  · rw [run_nats_empty w serviceName hN]
    refine ⟨by simp [hN, Effect.isListenerStart], fun _ => ⟨rfl, by simp [Effect.isListener],
      [.ConnectDB, .NewStore], _, _, rfl⟩, fun _ => ⟨rfl, by simp [Effect.isListener]⟩⟩
  · rw [run_port_error w serviceName e hN hP]
    refine ⟨by simp [hP, Effect.isListenerStart], fun _ => ⟨rfl, by simp [Effect.isListener],
      [.ConnectDB, .NewStore, .NewMsgBroker serviceName (w.Getenv "NATS_URL"), .NewHandler],
      _, _, rfl⟩, fun _ => ⟨rfl, by simp [Effect.isListener]⟩⟩
  · rw [run_blocked w serviceName port hN hP hA]
    refine ⟨by simp [hN, hP, startupTrace, Effect.isListenerStart],
      fun h => absurd ⟨hN, port, hP⟩ h, fun h => ?_⟩
    rw [h, Atoi_empty] at hP; cases hP
  · rw [run_fault w serviceName port err rest hN hP hA]
    refine ⟨by simp [hN, hP, startupTrace, Effect.isListenerStart],
      fun h => absurd ⟨hN, port, hP⟩ h, fun h => ?_⟩
    rw [h, Atoi_empty] at hP; cases hP
  · rw [run_interrupt w serviceName port sig rest hN hP hA]
    refine ⟨by simp [hN, hP, startupTrace, Effect.isListenerStart],
      fun h => absurd ⟨hN, port, hP⟩ h, fun h => ?_⟩
    rw [h, Atoi_empty] at hP; cases hP

theorem listener_started_iff_config_valid_witness :
    (run ⟨env "nats://n:4222" "", [.shutdown .SIGINT], none⟩ "auth service").ending
        = .exited 1 ∧
      (run ⟨env "nats://n:4222" "", [.shutdown .SIGINT], none⟩
        "auth service").trace.any Effect.isListener = false :=
  (listener_started_iff_config_valid ⟨env "nats://n:4222" "", [.shutdown .SIGINT], none⟩
    "auth service").2.2 (by decide)

/-- C6 (as stated, refuted): with `NATS_URL` empty the process ends by
`os.Exit(1)` after `database.ConnectDB` and `userdb.NewStore`, and with a
malformed `PORT` also after `msgbroker.NewMsgBroker` and `handler.NewHandler`:
it is false that nothing has been acquired on a fatal-startup exit. -/
theorem startup_exit_nothing_acquired_false :
    ¬ (∀ (w : World) (serviceName : String) (code : Int),
        (run w serviceName).ending = .exited code →
        (run w serviceName).trace.any Effect.isAcquire = false) ∧
    (run ⟨env "" "8080", [], none⟩ "auth service").ending = .exited 1 ∧
    (run ⟨env "" "8080", [], none⟩ "auth service").trace.filter Effect.isAcquire
      = [.ConnectDB, .NewStore] ∧
    (run ⟨env "nats://n:4222" "http", [], none⟩ "auth service").ending = .exited 1 ∧
    (run ⟨env "nats://n:4222" "http", [], none⟩ "auth service").trace.filter Effect.isAcquire
      = [.ConnectDB, .NewStore, .NewMsgBroker "auth service" "nats://n:4222", .NewHandler] := by
  refine ⟨fun h => ?_, by decide, by decide, by decide, by decide⟩
  have h1 := h ⟨env "" "8080", [], none⟩ "auth service" 1 (by decide)
  revert h1
  decide

/-- C6 (amended): on every exit of `run` by `os.Exit` the status is 1 and the
trace is `database.ConnectDB`, `userdb.NewStore`, then, when `NATS_URL` is not
empty, `msgbroker.NewMsgBroker` and `handler.NewHandler`, then a `log.Error`
line and `os.Exit(1)`: the store connection is open, and only the listener, the
signal registration and the two goroutines have not been made. -/
theorem startup_exit_acquired (w : World) (serviceName : String) (code : Int)
    (h : (run w serviceName).ending = .exited code) :
    code = 1 ∧
    ((w.Getenv "NATS_URL" = "" ∧ (run w serviceName).trace =
        [.ConnectDB, .NewStore,
          .logError serviceName [.str "status", .str "Environment variable NATS_URL is empty"],
          .osExit 1]) ∨
      (w.Getenv "NATS_URL" ≠ "" ∧ (run w serviceName).trace =
        [.ConnectDB, .NewStore, .NewMsgBroker serviceName (w.Getenv "NATS_URL"), .NewHandler,
          .logError serviceName
            [.str "status", .str "Environment variable PORT converting to integer"],
          .osExit 1])) := by
  rcases run_cases w with hN | ⟨hN, e, hP⟩ | ⟨hN, port, hP, hA | ⟨err, rest, hA⟩ | ⟨sig, rest, hA⟩⟩
  · rw [run_nats_empty w serviceName hN] at h ⊢
    simp at h
    exact ⟨h.symm, Or.inl ⟨hN, rfl⟩⟩
  · rw [run_port_error w serviceName e hN hP] at h ⊢
    simp at h
    exact ⟨h.symm, Or.inr ⟨hN, rfl⟩⟩
  · rw [run_blocked w serviceName port hN hP hA] at h; simp at h
  · rw [run_fault w serviceName port err rest hN hP hA] at h; simp at h
  · rw [run_interrupt w serviceName port sig rest hN hP hA] at h; simp at h

theorem startup_exit_acquired_witness :
    (1 : Int) = 1 ∧
    (((env "nats://n:4222" "") "NATS_URL" = "" ∧
        (run ⟨env "nats://n:4222" "", [], none⟩ "auth service").trace =
        [.ConnectDB, .NewStore,
          .logError "auth service"
            [.str "status", .str "Environment variable NATS_URL is empty"],
          .osExit 1]) ∨
      ((env "nats://n:4222" "") "NATS_URL" ≠ "" ∧
        (run ⟨env "nats://n:4222" "", [], none⟩ "auth service").trace =
        [.ConnectDB, .NewStore, .NewMsgBroker "auth service" ((env "nats://n:4222" "") "NATS_URL"),
          .NewHandler,
          .logError "auth service"
            [.str "status", .str "Environment variable PORT converting to integer"],
          .osExit 1])) :=
  startup_exit_acquired ⟨env "nats://n:4222" "", [], none⟩ "auth service" 1 (by decide)

/-! ## Exit status -/

/-- C4 (the code at a runtime error): when `run` returns the wrapped listener
error, or the wrapped `srv.Shutdown` error, `main` logs it and returns, so the
process ends with status 0; the startup failures end it with status 1 and a
clean shutdown with status 0. -/
theorem main_exit_status_on_runtime_error :
    (main ⟨env "nats://n:4222" "8080",
        [.serverErrors (some (.errorString "listen tcp :8080: bind: address already in use"))],
        none⟩ = ⟨some 0, startupTrace "auth service" "nats://n:4222" 8080 ++
          [.dbClose, .logError
            "auth service Error server shutdown: server error: listen tcp :8080: bind: address already in use\n"
            []]⟩) ∧
    (main ⟨env "nats://n:4222" "8080", [.shutdown .SIGTERM],
        some (.errorString "context deadline exceeded")⟩).status = some 0 ∧
    (main ⟨env "nats://n:4222" "8080", [.shutdown .SIGTERM], none⟩).status = some 0 ∧
    (main ⟨env "" "8080", [], none⟩).status = some 1 ∧
    (main ⟨env "nats://n:4222" "eighty", [], none⟩).status = some 1 := by
  decide

/-! ## The bind address -/

theorem isDigit_iff (c : Char) : isDigit c = true ↔ 48 ≤ c.toNat ∧ c.toNat ≤ 57 := by
  simp only [isDigit, decide_eq_true_eq, Char.le_def, UInt32.le_def]
  rfl

theorem isDigit_iff_le (c : Char) : isDigit c = true ↔ ('0' ≤ c ∧ c ≤ '9') := by
  simp [isDigit]

theorem ofNat_digitVal (c : Char) (h : isDigit c = true) :
    Char.ofNat ('0'.toNat + digitVal c) = c := by
  rw [isDigit_iff] at h
  have h0 : '0'.toNat = 48 := rfl
  have : '0'.toNat + (c.toNat - '0'.toNat) = c.toNat := by omega
  unfold digitVal
  rw [this]
  exact Char.ofNat_toNat c

theorem digitVal_lt (c : Char) (h : isDigit c = true) : digitVal c < 10 := by
  rw [isDigit_iff] at h
  have : '0'.toNat = 48 := rfl
  simp only [digitVal]; omega

theorem digitVal_eq_zero (c : Char) (h : isDigit c = true) (h0 : digitVal c = 0) : c = '0' := by
  have := ofNat_digitVal c h
  rw [h0] at this
  exact this.symm

theorem isDigit_ofNat (d : Nat) (h : d < 10) : isDigit (Char.ofNat ('0'.toNat + d)) = true := by
  interval_cases d <;> rfl

theorem ofNat_eq_zero (d : Nat) (h : d < 10) (h0 : Char.ofNat ('0'.toNat + d) = '0') : d = 0 := by
  interval_cases d <;> first | rfl | (exact absurd h0 (by decide))

/-! ### Printing -/

theorem formatBitsLoop_fuel (f1 : Nat) : ∀ (f2 u : Nat), u ≤ f1 → u ≤ f2 →
    formatBitsLoop f1 u = formatBitsLoop f2 u := by
  induction f1 with
  | zero =>
    intro f2 u h1 h2
    have hu : u = 0 := by omega
    subst hu
    cases f2 <;> simp [formatBitsLoop]
  | succ k ih =>
    intro f2 u h1 h2
    cases f2 with
    | zero =>
      have hu : u = 0 := by omega
      subst hu
      simp [formatBitsLoop]
    | succ j =>
      simp only [formatBitsLoop]
      split
      · rw [ih j (u / 10) (by omega) (by omega)]
      · rfl

theorem formatDigits_lt (u : Nat) (h : u < 10) :
    formatDigits u = [Char.ofNat ('0'.toNat + u)] := by
  unfold formatDigits
  cases u with
  | zero => simp [formatBitsLoop]
  | succ k =>
    simp only [formatBitsLoop]
    rw [if_neg (by omega)]

theorem formatDigits_ge (u : Nat) (h : 10 ≤ u) :
    formatDigits u = formatDigits (u / 10) ++ [Char.ofNat ('0'.toNat + u % 10)] := by
  unfold formatDigits
  cases u with
  | zero => omega
  | succ k =>
    simp only [formatBitsLoop]
    rw [if_pos (by omega), formatBitsLoop_fuel k ((k + 1) / 10) ((k + 1) / 10) (by omega) (le_refl _)]

/-- The output of `formatDigits` starts with a digit, which is `'0'` only for
the single digit of zero. -/
theorem formatDigits_head (n : Nat) :
    ∃ d tl, formatDigits n = d :: tl ∧ isDigit d = true ∧ (d = '0' → n = 0 ∧ tl = []) := by
  induction n using Nat.strong_induction_on with
  | _ n ih =>
    by_cases h : n < 10
    · refine ⟨_, [], formatDigits_lt n h, isDigit_ofNat n h, fun h0 => ⟨ofNat_eq_zero n h h0, rfl⟩⟩
    · obtain ⟨d, tl, hd, hdig, hz⟩ := ih (n / 10) (by omega)
      refine ⟨d, tl ++ [Char.ofNat ('0'.toNat + n % 10)], ?_, hdig, fun h0 => ?_⟩
      · rw [formatDigits_ge n (by omega), hd]; rfl
      · have := (hz h0).1
        omega

/-! ### Parsing -/

theorem foldl_digit_ge (cs : List Char) : ∀ a : Nat,
    a ≤ cs.foldl (fun a c => a * 10 + digitVal c) a := by
  induction cs with
  | nil => intro a; simp
  | cons c cs ih =>
    intro a
    simp only [List.foldl_cons]
    exact le_trans (by omega) (ih _)

theorem digitsVal_append (init : List Char) (c : Char) :
    digitsVal (init ++ [c]) = digitsVal init * 10 + digitVal c := by
  simp [digitsVal, List.foldl_append]

theorem digitsVal_pos (d : Char) (tl : List Char) (hd : isDigit d = true) (h0 : d ≠ '0') :
    0 < digitsVal (d :: tl) := by
  have h1 : 0 < digitVal d := by
    rcases Nat.eq_zero_or_pos (digitVal d) with h | h
    · exact absurd (digitVal_eq_zero d hd h) h0
    · exact h
  have := foldl_digit_ge tl (0 * 10 + digitVal d)
  simp only [digitsVal, List.foldl_cons]
  omega

theorem positiveDigits_iff (ds : List Char) :
    positiveDigits ds = true ↔
      ∃ d tl, ds = d :: tl ∧ isDigit d = true ∧ d ≠ '0' ∧ ∀ c ∈ tl, isDigit c = true := by
  cases ds with
  | nil => simp [positiveDigits]
  | cons d tl => simp [positiveDigits, and_assoc]

/-- Printing the value of a run of digits with no leading zero gives the run
back. -/
theorem formatDigits_digitsVal (ds : List Char) :
    positiveDigits ds = true → formatDigits (digitsVal ds) = ds := by
  induction ds using List.reverseRecOn with
  | nil => simp [positiveDigits]
  | append_singleton init c ih =>
    intro h
    obtain ⟨d, tl, hds, hd, hd0, htl⟩ := (positiveDigits_iff _).1 h
    have hc : isDigit c = true := by
      cases init with
      | nil =>
        simp at hds
        rw [hds.1]; exact hd
      | cons a as =>
        simp at hds
        have : c ∈ tl := by rw [← hds.2]; simp
        exact htl c this
    rw [digitsVal_append]
    cases init with
    | nil =>
      simp only [digitsVal, List.foldl_nil, Nat.zero_mul, Nat.zero_add, List.nil_append]
      rw [formatDigits_lt _ (digitVal_lt c hc), ofNat_digitVal c hc]
    | cons a as =>
      simp at hds
      have hpos : positiveDigits (a :: as) = true := by
        rw [positiveDigits_iff]
        refine ⟨a, as, rfl, by rw [hds.1]; exact hd, by rw [hds.1]; exact hd0, ?_⟩
        intro x hx
        exact htl x (by rw [← hds.2]; simp [hx])
      have hv : 0 < digitsVal (a :: as) :=
        digitsVal_pos a as (by rw [hds.1]; exact hd) (by rw [hds.1]; exact hd0)
      have hlt := digitVal_lt c hc
      rw [formatDigits_ge _ (by omega)]
      have e1 : (digitsVal (a :: as) * 10 + digitVal c) / 10 = digitsVal (a :: as) := by omega
      have e2 : (digitsVal (a :: as) * 10 + digitVal c) % 10 = digitVal c := by omega
      rw [e1, e2, ih hpos, ofNat_digitVal c hc]

/-- Printing the value of a run of digits gives the run back exactly when the
run is `0` or has no leading zero. -/
theorem formatDigits_digitsVal_iff (ds : List Char) (hds : ∀ c ∈ ds, isDigit c = true) :
    formatDigits (digitsVal ds) = ds ↔ (ds = ['0'] ∨ positiveDigits ds = true) := by
  constructor
  · intro h
    obtain ⟨d, tl, hd, hdig, hz⟩ := formatDigits_head (digitsVal ds)
    rw [h] at hd
    by_cases h0 : d = '0'
    · left
      rw [hd, h0, (hz h0).2]
    · right
      rw [positiveDigits_iff]
      exact ⟨d, tl, hd, hdig, h0, fun c hc => hds c (by rw [hd]; simp [hc])⟩
  · rintro (h | h)
    · rw [h]; decide
    · exact formatDigits_digitsVal ds h


theorem atoiLoop_ok (cs : List Char) : ∀ (k : Nat) (m : Int),
    atoiLoop cs (k : Int) = .ok m →
      (∀ c ∈ cs, isDigit c = true) ∧
        m = ((cs.foldl (fun a c => a * 10 + digitVal c) k : Nat) : Int) := by
  induction cs with
  | nil =>
    intro k m h
    simp only [atoiLoop, Except.ok.injEq] at h
    simp [h.symm]
  | cons c cs ih =>
    intro k m h
    simp only [atoiLoop] at h
    split at h
    · rename_i hc
      have h2 : ((k : Int) * 10 + ((c.toNat - '0'.toNat : Nat) : Int))
          = ((k * 10 + digitVal c : Nat) : Int) := by
        simp [digitVal]
      rw [h2] at h
      obtain ⟨h3, h4⟩ := ih _ _ h
      refine ⟨?_, by simpa using h4⟩
      intro x hx
      rcases List.mem_cons.1 hx with rfl | hx
      · exact (isDigit_iff_le _).2 hc
      · exact h3 x hx
    · cases h

theorem parseUintLoop_ok (cs : List Char) : ∀ (n m : Nat),
    parseUintLoop cs n = .ok m →
      (∀ c ∈ cs, isDigit c = true) ∧ m = cs.foldl (fun a c => a * 10 + digitVal c) n := by
  induction cs with
  | nil =>
    intro n m h
    simp only [parseUintLoop, Except.ok.injEq] at h
    simp [h.symm]
  | cons c cs ih =>
    intro n m h
    simp only [parseUintLoop] at h
    split at h
    · rename_i hc
      have hdig : isDigit c = true := (isDigit_iff_le _).2 hc
      split at h
      · cases h
      · rename_i hcut
        split at h
        · cases h
        · rename_i hov
          have hlt := digitVal_lt c hdig
          have hn : n < 1844674407370955162 := by
            simp only [maxUint64] at hcut
            omega
          have e1 : n * 10 % 2 ^ 64 = n * 10 := Nat.mod_eq_of_lt (by omega)
          have hd : c.toNat - '0'.toNat = digitVal c := rfl
          have e2 : (n * 10 + digitVal c) % 2 ^ 64 = n * 10 + digitVal c := by
            by_contra hne
            apply hov
            left
            rw [e1, hd]
            have hge : 2 ^ 64 ≤ n * 10 + digitVal c := by
              by_contra hlt2
              exact hne (Nat.mod_eq_of_lt (by omega))
            have hsub : (n * 10 + digitVal c) % 2 ^ 64 = n * 10 + digitVal c - 2 ^ 64 := by
              rw [Nat.mod_eq_sub_mod hge]
              exact Nat.mod_eq_of_lt (by omega)
            omega
          rw [e1, hd, e2] at h
          obtain ⟨h3, h4⟩ := ih _ _ h
          refine ⟨?_, by simpa using h4⟩
          intro x hx
          rcases List.mem_cons.1 hx with rfl | hx
          · exact hdig
          · exact h3 x hx
    · cases h

theorem ParseUint_ok (cs : List Char) (un : Nat) (h : ParseUint cs = .ok un) :
    cs ≠ [] ∧ (∀ c ∈ cs, isDigit c = true) ∧ un = digitsVal cs := by
  unfold ParseUint at h
  split at h
  · cases h
  · rename_i hne
    exact ⟨hne, parseUintLoop_ok cs 0 un h⟩

theorem negInt64_toInt64 (un : Nat) (h : un ≤ 2 ^ 63) : negInt64 (toInt64 un) = -(un : Int) := by
  unfold negInt64 toInt64
  split <;> split <;> omega

theorem ParseInt_ok (cs : List Char) (n : Int) (h : ParseInt cs = .ok n) : Accepts cs n := by
  unfold ParseInt at h
  cases cs with
  | nil => cases h
  | cons c0 tl =>
    simp only at h
    cases hU : ParseUint (if c0 = '+' ∨ c0 = '-' then tl else c0 :: tl) with
    | error e =>
      rw [hU] at h
      cases e with
      | ErrSyntax => cases h
      | ErrRange =>
        simp only [maxUint64, intSize] at h
        split at h
        · cases h
        · rename_i h1
          split at h
          · cases h
          · rename_i h2
            exfalso
            by_cases hneg : c0 = '-'
            · apply h2; simp [hneg]
            · apply h1; simp [hneg]
    | ok un =>
      rw [hU] at h
      obtain ⟨hne, hdig, hval⟩ := ParseUint_ok _ _ hU
      simp only [intSize] at h
      split at h
      · cases h
      · rename_i h1
        split at h
        · cases h
        · rename_i h2
          simp only [Except.ok.injEq] at h
          by_cases hneg : c0 = '-'
          · subst hneg
            simp only [decide_True, true_and, not_lt, gt_iff_lt, or_true, if_true] at h2 hne hdig hval
            refine ⟨tl, hne, hdig, Or.inr (Or.inr ⟨rfl, ?_⟩)⟩
            rw [← h, ← hval]
            simp only [decide_True, if_true]
            exact negInt64_toInt64 un (by omega)
          · by_cases hpos : c0 = '+'
            · subst hpos
              simp only [true_or, if_true] at hne hdig hval
              simp only [hneg, decide_False, Bool.false_eq_true, not_false_eq_true, true_and,
                not_le, ge_iff_le] at h1
              refine ⟨tl, hne, hdig, Or.inr (Or.inl ⟨rfl, ?_⟩)⟩
              rw [← h, ← hval]
              simp only [hneg, decide_False, Bool.false_eq_true, if_false]
              unfold toInt64
              rw [if_pos (by omega)]
            · simp only [hneg, hpos, or_self, if_false] at hne hdig hval
              simp only [hneg, decide_False, Bool.false_eq_true, not_false_eq_true, true_and,
                not_le, ge_iff_le] at h1
              refine ⟨c0 :: tl, hne, hdig, Or.inl ⟨rfl, ?_⟩⟩
              rw [← h, ← hval]
              simp only [hneg, decide_False, Bool.false_eq_true, if_false]
              unfold toInt64
              rw [if_pos (by omega)]

theorem Atoi_ok (s : String) (n : Int) (h : Atoi s = .ok n) : Accepts s.data n := by
  unfold Atoi at h
  simp only at h
  split at h
  · cases hs : s.data with
    | nil => rw [hs] at h; cases h
    | cons c0 tl =>
      rw [hs] at h
      simp only at h
      split at h
      · cases h
      · rename_i hlen
        cases hL : atoiLoop (if c0 = '-' ∨ c0 = '+' then tl else c0 :: tl) 0 with
        | error e => rw [hL] at h; cases h
        | ok m =>
          rw [hL] at h
          simp only [Except.ok.injEq] at h
          have hL2 := atoiLoop_ok _ 0 m (by simpa using hL)
          by_cases hneg : c0 = '-'
          · subst hneg
            simp only [true_or, if_true, true_and, not_lt] at hL2 hlen h
            refine ⟨tl, ?_, hL2.1, Or.inr (Or.inr ⟨rfl, ?_⟩)⟩
            · intro h0; rw [h0] at hlen; simp at hlen
            · rw [← h, hL2.2]; rfl
          · by_cases hpos : c0 = '+'
            · subst hpos
              simp only [or_true, if_true, true_and, not_lt] at hL2 hlen
              simp only [hneg, if_false] at h
              refine ⟨tl, ?_, hL2.1, Or.inr (Or.inl ⟨rfl, ?_⟩)⟩
              · intro h0; rw [h0] at hlen; simp at hlen
              · rw [← h, hL2.2]; rfl
            · simp only [hneg, hpos, or_self, if_false] at hL2 h
              refine ⟨c0 :: tl, by simp, hL2.1, Or.inl ⟨rfl, ?_⟩⟩
              rw [← h, hL2.2]; rfl
  · exact ParseInt_ok s.data n h

theorem canonicalDecimal_minus (s : String) (ds : List Char) (h : s.data = '-' :: ds) :
    canonicalDecimal s = positiveDigits ds := by
  unfold canonicalDecimal
  rw [h]
  rfl

theorem canonicalDecimal_other (s : String) (h : ∀ ds, s.data ≠ '-' :: ds) :
    canonicalDecimal s = (s.data == ['0'] || positiveDigits s.data) := by
  unfold canonicalDecimal
  split
  · rename_i ds hds
    exact absurd hds (h ds)
  · rfl

theorem mk_eq_iff (t : List Char) (s : String) : String.mk t = s ↔ t = s.data := by
  constructor
  · intro h; rw [← h]
  · intro h; rw [h]

theorem Itoa_ofNat (v : Nat) : Itoa (v : Int) = String.mk (formatDigits v) := by
  unfold Itoa
  rw [if_neg (by omega)]
  simp

theorem Itoa_neg (v : Nat) (h : 0 < v) :
    Itoa (-(v : Int)) = String.mk ('-' :: formatDigits v) := by
  unfold Itoa
  rw [if_pos (by omega)]
  simp

/-- For a string that `Atoi` accepts, printing the parsed value with `Itoa`
gives the string back exactly when the string is in canonical decimal form. -/
theorem Itoa_Atoi_iff (s : String) (n : Int) (h : Atoi s = .ok n) :
    Itoa n = s ↔ canonicalDecimal s = true := by
  obtain ⟨body, hne, hdig, hc⟩ := Atoi_ok s n h
  rcases hc with ⟨hd, hn⟩ | ⟨hd, hn⟩ | ⟨hd, hn⟩
  · -- bare digits
    obtain ⟨c, tl, rfl⟩ := List.exists_cons_of_ne_nil hne
    have hcd : isDigit c = true := hdig c (by simp)
    have hcm : c ≠ '-' := by
      intro h0; rw [h0] at hcd; exact absurd hcd (by decide)
    rw [canonicalDecimal_other s (by intro ds h0; rw [hd] at h0; exact hcm (List.cons.inj h0).1),
      hn, Itoa_ofNat, mk_eq_iff, hd, formatDigits_digitsVal_iff _ hdig]
    simp
  · -- plus sign
    rw [canonicalDecimal_other s (by intro ds h0; rw [hd] at h0; exact absurd (List.cons.inj h0).1 (by decide)),
      hn, Itoa_ofNat, mk_eq_iff, hd]
    obtain ⟨d, tl, hf, hdd, -⟩ := formatDigits_head (digitsVal body)
    rw [hf]
    have hdp : d ≠ '+' := by
      intro h0; rw [h0] at hdd; exact absurd hdd (by decide)
    have hp : positiveDigits ('+' :: body) = false := by
      simp [positiveDigits, isDigit]
    simp [hdp, hp]
  · -- minus sign
    rw [canonicalDecimal_minus s body hd, hn]
    rcases Nat.eq_zero_or_pos (digitsVal body) with h0 | hpos
    · rw [h0]
      have hI : Itoa (-((0 : Nat) : Int)) = "0" := by decide
      rw [hI]
      constructor
      · intro h1
        rw [← h1] at hd
        exact absurd (List.cons.inj hd).1 (by decide)
      · intro h1
        obtain ⟨d, tl, hb, hdd, hd0, -⟩ := (positiveDigits_iff _).1 h1
        have := digitsVal_pos d tl hdd hd0
        rw [← hb] at this
        omega
    · rw [Itoa_neg _ hpos, mk_eq_iff, hd]
      simp only [List.cons.injEq, true_and]
      rw [formatDigits_digitsVal_iff _ hdig]
      constructor
      · rintro (h1 | h1)
        · rw [h1] at hpos
          exact absurd hpos (by decide)
        · exact h1
      · exact Or.inr

theorem colon_append_inj (a b : String) : ":" ++ a = ":" ++ b ↔ a = b := by
  constructor
  · intro h
    have := congrArg String.data h
    simp only [String.data_append, List.append_cancel_left_eq] at this
    exact String.ext this
  · intro h; rw [h]

/-- C9: when `NATS_URL` is not empty and `strconv.Atoi` accepts `PORT` with
value `port`, the one `http.Server` that `run` constructs has `Addr` equal to
":" followed by `strconv.Itoa(port)`, and that is ":" followed by `PORT` itself
exactly when `PORT` is in canonical decimal form; a plus sign, leading zeros, a
negative value and a value above 65535 are all accepted. -/
theorem bind_address_canonical (w : World) (serviceName : String) (port : Int)
    (hN : w.Getenv "NATS_URL" ≠ "") (hP : Atoi (w.Getenv "PORT") = .ok port) :
    (run w serviceName).trace.filterMap Effect.addr = [":" ++ Itoa port] ∧
    (":" ++ Itoa port = ":" ++ w.Getenv "PORT" ↔ canonicalDecimal (w.Getenv "PORT") = true) ∧
    (Atoi "+8080" = .ok 8080 ∧ Atoi "0080" = .ok 80 ∧ Atoi "-1" = .ok (-1) ∧
      Atoi "70000" = .ok 70000) := by
  refine ⟨?_, ?_, by decide⟩
  · have hcase : w.arrivals = [] ∨ (∃ err rest, w.arrivals = .serverErrors err :: rest) ∨
        (∃ sig rest, w.arrivals = .shutdown sig :: rest) := by
      cases hA : w.arrivals with
      | nil => exact Or.inl rfl
      | cons a rest =>
        cases a with
        | serverErrors err => exact Or.inr (Or.inl ⟨err, rest, rfl⟩)
        | shutdown sig => exact Or.inr (Or.inr ⟨sig, rest, rfl⟩)
    rcases hcase with hA | ⟨err, rest, hA⟩ | ⟨sig, rest, hA⟩
    · rw [run_blocked w serviceName port hN hP hA]
      simp [startupTrace, List.filterMap, Effect.addr]
    · rw [run_fault w serviceName port err rest hN hP hA]
      simp [startupTrace, List.filterMap, Effect.addr]
    · rw [run_interrupt w serviceName port sig rest hN hP hA]
      simp [startupTrace, List.filterMap, Effect.addr]
  · rw [colon_append_inj]
    exact Itoa_Atoi_iff _ port hP

theorem bind_address_canonical_witness :
    ((run ⟨env "nats://n:4222" "+0080", [], none⟩ "auth service").trace.filterMap Effect.addr
        = [":" ++ Itoa 80] ∧
      (":" ++ Itoa 80 = ":" ++ (env "nats://n:4222" "+0080") "PORT" ↔
        canonicalDecimal ((env "nats://n:4222" "+0080") "PORT") = true) ∧
      (Atoi "+8080" = .ok 8080 ∧ Atoi "0080" = .ok 80 ∧ Atoi "-1" = .ok (-1) ∧
        Atoi "70000" = .ok 70000)) ∧
    ":" ++ Itoa 80 = ":80" ∧ canonicalDecimal "+0080" = false ∧
    Itoa (-1) = "-1" ∧ Itoa 70000 = "70000" :=
  ⟨bind_address_canonical ⟨env "nats://n:4222" "+0080", [], none⟩ "auth service" 80
      (by decide) (by decide),
    by decide, by decide, by decide, by decide⟩

end AuthApi
